import Mathlib

/-!
Verification of the Substrait-to-Acero relation translation
(`arrow/engine/substrait/relation_internal.cc`, function `FromProto`)
and of the error-propagation contract of the streaming execution engine.

The embedding follows the source line by line.  External collaborators that
are not part of the translated source (the expression translator of
`expression_internal.cc`, the schema translator of `type_internal.cc`, the
local filesystem, and the extension-set function decoder) are injected as a
record of functions, exactly as the C++ calls out to them; every theorem
quantifies over that record, so the results hold for any behaviour of those
collaborators.
-/

namespace ArrowSubstrait

/-- Mirror of `arrow::Status` codes, restricted to the codes this
translation unit produces. -/
inductive StatusCode where
  | ok
  | invalid
  | notImplemented
  | ioError
  deriving DecidableEq, Repr

/-- Mirror of `arrow::Status`: a code plus a message. -/
structure Status where
  code : StatusCode
  message : String
  deriving DecidableEq, Repr

def Status.invalid (m : String) : Status := ⟨StatusCode.invalid, m⟩

def Status.notImplemented (m : String) : Status := ⟨StatusCode.notImplemented, m⟩

/-- Outcome of running a piece of the C++ translation: a value, an error
`Status` (the `Result<T>` error path), or undefined behaviour (reached by an
out-of-bounds `std::vector`/repeated-field index, which the C++ standard
leaves undefined).  -/
inductive CRes (α : Type) where
  | ok : α → CRes α
  | err : Status → CRes α
  | ub : CRes α
  deriving Repr, DecidableEq

def CRes.bind {α β : Type} : CRes α → (α → CRes β) → CRes β
  | .ok a, f => f a
  | .err s, _ => .err s
  | .ub, _ => .ub

instance : Monad CRes where
  pure := CRes.ok
  bind := CRes.bind

/-- `ARROW_ASSIGN_OR_RAISE` on a `Result` produced by an external
collaborator: propagate the error, keep the value. -/
def liftE {α : Type} : Except Status α → CRes α
  | .ok a => .ok a
  | .error s => .err s

/-- `std::vector::operator[]` / protobuf repeated-field `Get`: no bounds
check is performed by the C++, so an out-of-range index is undefined
behaviour. -/
def vecIdx {α : Type} (v : List α) (i : Nat) : CRes α :=
  match v.get? i with
  | some x => .ok x
  | none => .ub

/-- `arrow::FieldRef` as used here: a reference by integer position or by
name. -/
inductive FieldRef where
  | index : Int → FieldRef
  | name : String → FieldRef
  deriving DecidableEq, Repr

/-- The part of `arrow::compute::Expression` that `relation_internal.cc`
observes: a function call (`expression.call()`), a field reference
(`expression.field_ref()`), or anything else (literal, ...). -/
inductive Expression where
  | call : String → List Expression → Expression
  | field : FieldRef → Expression
  | literal : Expression

/-- `Expression::call()`: the call contents when the expression is a call,
null otherwise. -/
def Expression.callOf : Expression → Option (String × List Expression)
  | .call n args => some (n, args)
  | _ => none

/-- `Expression::field_ref()`: the field reference when the expression is a
field reference, null otherwise. -/
def Expression.fieldRefOf : Expression → Option FieldRef
  | .field r => some r
  | _ => none

/-- `arrow::compute::JoinType`. -/
inductive JoinType where
  | LEFT_SEMI | RIGHT_SEMI | LEFT_ANTI | RIGHT_ANTI
  | INNER | LEFT_OUTER | RIGHT_OUTER | FULL_OUTER
  deriving DecidableEq, Repr

/-- `arrow::compute::JoinKeyCmp`: `EQ` (nulls never match) or `IS`
(is-not-distinct-from, nulls match nulls). -/
inductive JoinKeyCmp where
  | EQ | IS
  deriving DecidableEq, Repr

/-- An Arrow schema, reduced to what the translation reads from it: the
ordered field names (`base_schema->fields().size()` drives the column
count). -/
structure Schema where
  fields : List String
  deriving DecidableEq, Repr

/-- `arrow::fs::FileType`, restricted to the cases the translation
distinguishes. -/
inductive FileType where
  | File | Directory | NotFound
  deriving DecidableEq, Repr

/-- `arrow::fs::FileInfo`: a path and its type. -/
structure FileInfo where
  path : String
  type : FileType
  deriving DecidableEq, Repr

/-- Moving a `fs::FileInfo` out of a vector (`std::move` over the elements)
leaves the source element moved-from: the enum member keeps its value, the
string member is left emptied. -/
def FileInfo.movedFrom (f : FileInfo) : FileInfo :=
  { path := "", type := f.type }

/-- `dataset::FileFormat` alternatives constructed by the translation. -/
inductive FileFormat where
  | parquet | ipc
  deriving DecidableEq, Repr

-- ---------------------------------------------------------------------------
-- Substrait messages (the fields `relation_internal.cc` reads)
-- ---------------------------------------------------------------------------

/-- `substrait::RelCommon`: presence bits checked by `CheckRelCommon`. -/
structure RelCommon where
  hasEmit : Bool
  hasHint : Bool
  hasAdvancedExtension : Bool
  deriving DecidableEq, Repr

/-- `substrait::ReadRel::LocalFiles::FileOrFiles::path_type` oneof. -/
inductive PathType where
  | uriPath : String → PathType
  | uriFile : String → PathType
  | uriFolder : String → PathType
  | uriPathGlob : String → PathType
  deriving DecidableEq, Repr

/-- `substrait::ReadRel::LocalFiles::FileOrFiles::file_format` oneof case. -/
inductive FileFormatCase where
  | parquet | arrow | other
  deriving DecidableEq, Repr

/-- `substrait::ReadRel::LocalFiles::FileOrFiles`. -/
structure FileOrFiles where
  pathType : PathType
  fileFormat : FileFormatCase
  partitionIndex : Nat
  start : Nat
  length : Nat
  deriving DecidableEq, Repr

/-- `substrait::ReadRel::LocalFiles`. -/
structure LocalFiles where
  items : List FileOrFiles
  hasAdvancedExtension : Bool
  deriving DecidableEq, Repr

/-- `substrait::AggregateRel::Grouping`: grouping expressions, as handles
into the external expression translator. -/
structure Grouping where
  groupingExpressions : List Nat
  deriving DecidableEq, Repr

/-- `substrait::AggregateFunction`: function reference plus argument
expression handles. -/
structure AggFunction where
  functionReference : Nat
  arguments : List Nat
  deriving DecidableEq, Repr

/-- `substrait::AggregateRel::Measure`. -/
structure Measure where
  measure : Option AggFunction
  hasFilter : Bool
  deriving DecidableEq, Repr

/-- `substrait::Rel`, restricted to the rel-type cases the translation
handles; every other case falls to `relOther` (the switch default).
Substrait expressions and the read base schema are opaque handles (`Nat`)
resolved by the injected external translators, mirroring the calls into
`expression_internal.cc` / `type_internal.cc`. -/
inductive Rel where
  | read (common : Option RelCommon) (hasAdvancedExtension : Bool) (baseSchema : Nat)
      (filterExpr : Option Nat) (hasProjection : Bool) (localFiles : Option LocalFiles) : Rel
  | filter (common : Option RelCommon) (hasAdvancedExtension : Bool)
      (input : Option Rel) (condition : Option Nat) : Rel
  | project (common : Option RelCommon) (hasAdvancedExtension : Bool)
      (input : Option Rel) (expressions : List Nat) : Rel
  | join (common : Option RelCommon) (hasAdvancedExtension : Bool)
      (left : Option Rel) (right : Option Rel) (joinType : Int) (expression : Option Nat) : Rel
  | aggregate (common : Option RelCommon) (hasAdvancedExtension : Bool)
      (input : Option Rel) (groupings : List Grouping) (measures : List Measure) : Rel
  | relOther : Rel

/-- Substrait `JoinRel::JoinType` numeric values (proto enum). -/
def JOIN_TYPE_UNSPECIFIED : Int := 0
def JOIN_TYPE_INNER : Int := 1
def JOIN_TYPE_OUTER : Int := 2
def JOIN_TYPE_LEFT : Int := 3
def JOIN_TYPE_RIGHT : Int := 4
def JOIN_TYPE_SEMI : Int := 5
def JOIN_TYPE_ANTI : Int := 6

-- ---------------------------------------------------------------------------
-- Acero declarations (the translation output)
-- ---------------------------------------------------------------------------

/-- The `ExecNodeOptions` bundles constructed by the translation.  A scan
dataset is represented by the data handed to
`FileSystemDatasetFactory::Make`/`Finish`: the file list, the format, the
schema, plus the `ScanOptions` filter. -/
inductive NodeOptions where
  | scan (files : List FileInfo) (format : Option FileFormat)
      (schema : Schema) (filterExpr : Option Expression) : NodeOptions
  | filter (condition : Expression) : NodeOptions
  | project (expressions : List Expression) : NodeOptions
  | hashjoin (joinType : JoinType) (leftKeys : List FieldRef) (rightKeys : List FieldRef)
      (keyCmp : List JoinKeyCmp) : NodeOptions
  | aggregate (aggregates : List (String × FieldRef)) (keys : List FieldRef) : NodeOptions

/-- `arrow::compute::Declaration`: factory name, options, inputs.  The
translation only ever stores declarations (never live nodes) as inputs. -/
inductive Declaration where
  | mk (factoryName : String) (options : NodeOptions) (inputs : List Declaration) : Declaration

def Declaration.factoryName : Declaration → String
  | .mk n _ _ => n

def Declaration.options : Declaration → NodeOptions
  | .mk _ o _ => o

def Declaration.inputs : Declaration → List Declaration
  | .mk _ _ i => i

/-- `Declaration::Sequence` specialised to the two-element lists used by
this translation unit: the second declaration receives the first as an
additional input. -/
def Declaration.sequence2 (input op : Declaration) : Declaration :=
  .mk op.factoryName op.options (op.inputs ++ [input])

/-- `arrow::engine::DeclarationInfo`: a declaration plus its output column
count. -/
structure DeclarationInfo where
  declaration : Declaration
  numColumns : Nat

/-- The external collaborators invoked by `relation_internal.cc` but
implemented elsewhere: the Substrait expression translator
(`FromProto(substrait::Expression, ...)`), the schema translator
(`FromProto(substrait::NamedStruct, ...)`), the local filesystem
(`GetFileInfo` on a path, `GetFileInfo` on a recursive selector,
`fs::internal::GlobFiles`), and the extension-set function decoder. -/
structure TranslationEnv where
  exprFromProto : Nat → Except Status Expression
  schemaFromProto : Nat → Except Status Schema
  getFileInfo : String → Except Status FileInfo
  listDirRecursive : String → Except Status (List FileInfo)
  globFiles : String → Except Status (List FileInfo)
  decodeFunction : Nat → Except Status String

-- ---------------------------------------------------------------------------
-- The translation itself
-- ---------------------------------------------------------------------------

/-- `CheckRelCommon`: reject emit, hint and advanced-extension fields. -/
def checkRelCommon (common : Option RelCommon) (hasAdvExt : Bool) : CRes Unit :=
  match common with
  | some c =>
    if c.hasEmit then .err (Status.notImplemented "substrait::RelCommon::Emit")
    else if c.hasHint then .err (Status.notImplemented "substrait::RelCommon::Hint")
    else if c.hasAdvancedExtension then
      .err (Status.notImplemented "substrait::RelCommon::advanced_extension")
    else if hasAdvExt then .err (Status.notImplemented "substrait AdvancedExtensions")
    else .ok ()
  | none =>
    if hasAdvExt then .err (Status.notImplemented "substrait AdvancedExtensions")
    else .ok ()

/-- One iteration of the `ReadRel::LocalFiles` item loop, carrying the
`files` vector and the `format` variable across iterations.  The
`kUriPath`-with-directory branch reproduces the source exactly: the freshly
discovered files are appended to a local vector that is then discarded,
while the elements of `files` are moved out (left moved-from); afterwards
the item falls into the trailing else and is also passed to `GlobFiles`. -/
def processItem (env : TranslationEnv) (state : List FileInfo × Option FileFormat)
    (item : FileOrFiles) : CRes (List FileInfo × Option FileFormat) :=
  let files := state.1
  let path :=
    match item.pathType with
    | .uriPath s => s
    | .uriFile s => s
    | .uriFolder s => s
    | .uriPathGlob s => s
  match item.fileFormat with
  | .other =>
    .err (Status.notImplemented
      "unknown substrait::ReadRel::LocalFiles::FileOrFiles::file_format")
  | ffCase =>
    let fmt := if ffCase = FileFormatCase.parquet then FileFormat.parquet else FileFormat.ipc
    if path.data.take 8 ≠ "file:///".data then
      .err (Status.notImplemented
        "substrait::ReadRel::LocalFiles item with other than local filesystem")
    else if item.partitionIndex ≠ 0 then
      .err (Status.notImplemented
        "non-default substrait::ReadRel::LocalFiles::FileOrFiles::partition_index")
    else if item.start ≠ 0 then
      .err (Status.notImplemented
        "non-default substrait::ReadRel::LocalFiles::FileOrFiles::start offset")
    else if item.length ≠ 0 then
      .err (Status.notImplemented
        "non-default substrait::ReadRel::LocalFiles::FileOrFiles::length")
    else
      let path := String.mk (path.data.drop 7)
      let afterUriPath : CRes (List FileInfo) :=
        match item.pathType with
        | .uriPath _ =>
          CRes.bind (liftE (env.getFileInfo path)) (fun file =>
            if file.type = FileType.File then .ok (files ++ [file])
            else if file.type = FileType.Directory then
              CRes.bind (liftE (env.listDirRecursive path)) (fun _discovered =>
                -- std::move(files.begin(), files.end(),
                --           std::back_inserter(discovered_files));
                -- discovered_files goes out of scope; files keeps its size
                -- with every element moved-from.
                .ok (files.map FileInfo.movedFrom))
            else .ok files)
        | _ => .ok files
      CRes.bind afterUriPath (fun files =>
        match item.pathType with
        | .uriFile _ => .ok (files ++ [⟨path, FileType.File⟩], some fmt)
        | .uriFolder _ =>
          CRes.bind (liftE (env.listDirRecursive path)) (fun discovered =>
            .ok (files ++ discovered, some fmt))
        | _ =>
          CRes.bind (liftE (env.globFiles path)) (fun discovered =>
            .ok (files ++ discovered, some fmt)))

/-- The `for (const auto& item : read.local_files().items())` loop. -/
def processItems (env : TranslationEnv) (items : List FileOrFiles)
    (state : List FileInfo × Option FileFormat) :
    CRes (List FileInfo × Option FileFormat) :=
  match items with
  | [] => .ok state
  | item :: rest =>
    CRes.bind (processItem env state item) (fun state => processItems env rest state)

/-- Translation of a list of Substrait expressions (the `ProjectRel`
expression loop). -/
def translateExprs (env : TranslationEnv) : List Nat → CRes (List Expression)
  | [] => .ok []
  | h :: rest =>
    CRes.bind (liftE (env.exprFromProto h)) (fun e =>
      CRes.bind (translateExprs env rest) (fun es => .ok (e :: es)))

/-- The grouping-expression loop of the aggregate case: every translated
grouping expression must be a direct field reference. -/
def translateKeys (env : TranslationEnv) : List Nat → CRes (List FieldRef)
  | [] => .ok []
  | h :: rest =>
    CRes.bind (liftE (env.exprFromProto h)) (fun e =>
      match e.fieldRefOf with
      | some r =>
        CRes.bind (translateKeys env rest) (fun rs => .ok (r :: rs))
      | none =>
        .err (Status.invalid
          "The grouping expression for an aggregate must be a direct reference."))

/-- The measure loop of the aggregate case. -/
def translateMeasures (env : TranslationEnv) : List Measure → CRes (List (String × FieldRef))
  | [] => .ok []
  | m :: rest =>
    match m.measure with
    | some aggFunc =>
      if m.hasFilter then .err (Status.notImplemented "Aggregate filters are not supported.")
      else if aggFunc.arguments.length ≠ 1 then
        .err (Status.notImplemented "Aggregate function must be a unary function.")
      else
        CRes.bind (liftE (env.decodeFunction aggFunc.functionReference)) (fun funcName =>
          CRes.bind (vecIdx aggFunc.arguments 0) (fun arg0 =>
            CRes.bind (liftE (env.exprFromProto arg0)) (fun fieldExpr =>
              match fieldExpr.fieldRefOf with
              | some target =>
                CRes.bind (translateMeasures env rest) (fun ms =>
                  .ok ((funcName, target) :: ms))
              | none =>
                .err (Status.invalid
                  "The input expression to an aggregate function must be a direct reference."))))
    | none => .err (Status.invalid "substrait::AggregateFunction not provided")

/-- The `switch (join.type())` of the kJoin case: map the Substrait join
type value to `compute::JoinType`, rejecting `JOIN_TYPE_UNSPECIFIED`
(NotImplemented) and any other value (Invalid). -/
def joinTypeFromProto (t : Int) : CRes JoinType :=
  if t = JOIN_TYPE_UNSPECIFIED then
    .err (Status.notImplemented "Unspecified join type is not supported")
  else if t = JOIN_TYPE_INNER then .ok JoinType.INNER
  else if t = JOIN_TYPE_OUTER then .ok JoinType.FULL_OUTER
  else if t = JOIN_TYPE_LEFT then .ok JoinType.LEFT_OUTER
  else if t = JOIN_TYPE_RIGHT then .ok JoinType.RIGHT_OUTER
  else if t = JOIN_TYPE_SEMI then .ok JoinType.LEFT_SEMI
  else if t = JOIN_TYPE_ANTI then .ok JoinType.LEFT_ANTI
  else .err (Status.invalid "Unsupported join type")

/-- The key-comparison function-name check of the kJoin case: only
`equal` (EQ) and `is_not_distinct_from` (IS) are accepted. -/
def joinKeyCmpFromName (functionName : String) : CRes JoinKeyCmp :=
  if functionName = "equal" then .ok JoinKeyCmp.EQ
  else if functionName = "is_not_distinct_from" then .ok JoinKeyCmp.IS
  else
    .err (Status.invalid
      "Only equal or is_not_distinct_from are supported for join key comparison")

/-- `arrow::engine::FromProto(const substrait::Rel&, ...)` of
`relation_internal.cc`, ported case by case. -/
def FromProto (env : TranslationEnv) : Rel → CRes DeclarationInfo
  | .read common advExt baseSchemaH filterH hasProjection localFilesOpt =>
    match checkRelCommon common advExt with
    | .err s => .err s
    | .ub => .ub
    | .ok _ =>
      match liftE (env.schemaFromProto baseSchemaH) with
      | .err s => .err s
      | .ub => .ub
      | .ok baseSchema =>
        let scanFilter : CRes (Option Expression) :=
          match filterH with
          | some h => CRes.bind (liftE (env.exprFromProto h)) (fun e => .ok (some e))
          | none => .ok none
        match scanFilter with
        | .err s => .err s
        | .ub => .ub
        | .ok scanFilterExpr =>
          if hasProjection then .err (Status.notImplemented "substrait::ReadRel::projection")
          else
            match localFilesOpt with
            | none =>
              .err (Status.notImplemented
                "substrait::ReadRel with read_type other than LocalFiles")
            | some localFiles =>
              if localFiles.hasAdvancedExtension then
                .err (Status.notImplemented
                  "substrait::ReadRel::LocalFiles::advanced_extension")
              else
                match processItems env localFiles.items ([], none) with
                | .err s => .err s
                | .ub => .ub
                | .ok (files, format) =>
                  let numColumns := baseSchema.fields.length
                  .ok ⟨Declaration.mk "scan"
                        (NodeOptions.scan files format baseSchema scanFilterExpr) [],
                       numColumns⟩
  | .filter common advExt inputOpt condOpt =>
    match checkRelCommon common advExt with
    | .err s => .err s
    | .ub => .ub
    | .ok _ =>
      match inputOpt with
      | none => .err (Status.invalid "substrait::FilterRel with no input relation")
      | some input =>
        match FromProto env input with
        | .err s => .err s
        | .ub => .ub
        | .ok inputInfo =>
          match condOpt with
          | none => .err (Status.invalid "substrait::FilterRel with no condition expression")
          | some condH =>
            match liftE (env.exprFromProto condH) with
            | .err s => .err s
            | .ub => .ub
            | .ok condition =>
              .ok ⟨Declaration.sequence2 inputInfo.declaration
                    (Declaration.mk "filter" (NodeOptions.filter condition) []),
                   inputInfo.numColumns⟩
  | .project common advExt inputOpt exprHandles =>
    match checkRelCommon common advExt with
    | .err s => .err s
    | .ub => .ub
    | .ok _ =>
      match inputOpt with
      | none => .err (Status.invalid "substrait::ProjectRel with no input relation")
      | some input =>
        match FromProto env input with
        | .err s => .err s
        | .ub => .ub
        | .ok inputInfo =>
          -- Substrait ProjectRels append columns, so all input columns are
          -- first re-emitted as field references.
          let passthru :=
            (List.range inputInfo.numColumns).map
              (fun i => Expression.field (FieldRef.index (Int.ofNat i)))
          match translateExprs env exprHandles with
          | .err s => .err s
          | .ub => .ub
          | .ok translated =>
            let expressions := passthru ++ translated
            let numColumns := expressions.length
            .ok ⟨Declaration.sequence2 inputInfo.declaration
                  (Declaration.mk "project" (NodeOptions.project expressions) []),
                 numColumns⟩
  | .join common advExt leftOpt rightOpt joinTypeVal exprOpt =>
    match checkRelCommon common advExt with
    | .err s => .err s
    | .ub => .ub
    | .ok _ =>
      match leftOpt with
      | none => .err (Status.invalid "substrait::JoinRel with no left relation")
      | some leftRel =>
        match rightOpt with
        | none => .err (Status.invalid "substrait::JoinRel with no right relation")
        | some rightRel =>
          match joinTypeFromProto joinTypeVal with
          | .err s => .err s
          | .ub => .ub
          | .ok joinType =>
            match FromProto env leftRel with
            | .err s => .err s
            | .ub => .ub
            | .ok left =>
              match FromProto env rightRel with
              | .err s => .err s
              | .ub => .ub
              | .ok right =>
                match exprOpt with
                | none => .err (Status.invalid "substrait::JoinRel with no expression")
                | some exprH =>
                  match liftE (env.exprFromProto exprH) with
                  | .err s => .err s
                  | .ub => .ub
                  | .ok expression =>
                    match expression.callOf with
                    | none =>
                      .err (Status.invalid
                        "A join rel expression must be a simple equality between keys")
                    | some (functionName, arguments) =>
                      match joinKeyCmpFromName functionName with
                      | .err s => .err s
                      | .ub => .ub
                      | .ok joinKeyCmp =>
                        -- callptr->arguments[0] / callptr->arguments[1]:
                        -- unchecked vector indexing.
                        match vecIdx arguments 0 with
                        | .err s => .err s
                        | .ub => .ub
                        | .ok arg0 =>
                          match vecIdx arguments 1 with
                          | .err s => .err s
                          | .ub => .ub
                          | .ok arg1 =>
                            match arg0.fieldRefOf, arg1.fieldRefOf with
                            | some leftKeys, some rightKeys =>
                              .ok ⟨Declaration.mk "hashjoin"
                                    (NodeOptions.hashjoin joinType [leftKeys] [rightKeys]
                                      [joinKeyCmp])
                                    [left.declaration, right.declaration],
                                   left.numColumns + right.numColumns⟩
                            | _, _ =>
                              .err (Status.invalid "Left keys for join cannot be null")
  | .aggregate common advExt inputOpt groupings measures =>
    match checkRelCommon common advExt with
    | .err s => .err s
    | .ub => .ub
    | .ok _ =>
      match inputOpt with
      | none => .err (Status.invalid "substrait::AggregateRel with no input relation")
      | some input =>
        match FromProto env input with
        | .err s => .err s
        | .ub => .ub
        | .ok inputInfo =>
          if groupings.length > 1 then
            .err (Status.notImplemented
              "Grouping sets not supported.  AggregateRel::groupings may not have more than one item")
          else
            match vecIdx groupings 0 with
            | .err s => .err s
            | .ub => .ub
            | .ok group =>
              match translateKeys env group.groupingExpressions with
              | .err s => .err s
              | .ub => .ub
              | .ok keys =>
                match translateMeasures env measures with
                | .err s => .err s
                | .ub => .ub
                | .ok aggregates =>
                  .ok ⟨Declaration.sequence2 inputInfo.declaration
                        (Declaration.mk "aggregate"
                          (NodeOptions.aggregate aggregates keys) []),
                       aggregates.length⟩
  | .relOther =>
    .err (Status.notImplemented
      "conversion to arrow::compute::Declaration from Substrait relation")

end ArrowSubstrait

namespace ArrowExec

open ArrowSubstrait (Status StatusCode)

/-- Modelled from the spec: the ExecNode graph on which the error-propagation
contract of spec section 7 ("every node forwards the first error it sees to
all its outputs") operates.  The ExecNode implementations are not among the
provided sources; only the documentation exemplar
`PassthruNode::ErrorReceived` (streaming_execution.rst) shows the contract.
A plan is a DAG of nodes identified by indices in topological order: every
edge leads from a node to an output node with a strictly larger index; a
node with no outputs is a sink. -/
structure ExecPlanGraph where
  numNodes : Nat
  outputs : Nat → List Nat
  edgesDownstream : ∀ i, i < numNodes → ∀ j ∈ outputs i, i < j ∧ j < numNodes

/-- Modelled from the spec: the set of nodes on which `ErrorReceived` is
invoked when an error is first delivered to node `i` — the node itself,
which then forwards the error to each of its outputs, recursively
(spec section 4.1, `ErrorReceived` contract). -/
def errorRecipients (g : ExecPlanGraph) (i : Nat) (hi : i < g.numNodes) : List Nat :=
  i :: ((g.outputs i).attach.map (fun jh =>
    errorRecipients g jh.1 (g.edgesDownstream i hi jh.1 jh.2).2)).flatten
termination_by g.numNodes - i
decreasing_by
  exact Nat.sub_lt_sub_left hi (g.edgesDownstream i hi _ jh.2).1

/-- Modelled from the spec: the status with which the plan's finished()
future resolves — the propagated error once it has reached a sink
(spec section 7, propagation policy). -/
def planFinishedStatus (g : ExecPlanGraph) (i : Nat) (hi : i < g.numNodes)
    (e : Status) : Status :=
  if (errorRecipients g i hi).any (fun j => (g.outputs j).isEmpty) then e
  else ⟨StatusCode.ok, ""⟩

/-- A concrete three-node plan, source -> passthru -> sink, used to
instantiate the propagation theorem. -/
def chainPlan : ExecPlanGraph where
  numNodes := 3
  outputs := fun i => if i = 0 then [1] else if i = 1 then [2] else []
  edgesDownstream := by decide

end ArrowExec

namespace ArrowSubstrait

/-- The error code of a translation outcome, if it is an error. -/
def CRes.errCode {α : Type} : CRes α → Option StatusCode
  | .err s => some s.code
  | _ => none

/-- The join type recorded in a hashjoin options bundle. -/
def NodeOptions.joinTypeOf : NodeOptions → Option JoinType
  | .hashjoin jt _ _ _ => some jt
  | _ => none

/-- The key-comparison list recorded in a hashjoin options bundle. -/
def NodeOptions.keyCmpOf : NodeOptions → Option (List JoinKeyCmp)
  | .hashjoin _ _ _ kc => some kc
  | _ => none

/-- The file list recorded in a scan options bundle (the files handed to
`FileSystemDatasetFactory::Make`). -/
def NodeOptions.scanFilesOf : NodeOptions → Option (List FileInfo)
  | .scan files _ _ _ => some files
  | _ => none

/-- The join-type correspondence exactly as the specification states it:
INNER to inner, OUTER to full outer, LEFT to left outer, RIGHT to right
outer, SEMI to left semi, ANTI to left anti; none for UNSPECIFIED and every
other value.  Stated from the spec wording, to be compared against the
translation. -/
def specJoinTypeMap (t : Int) : Option JoinType :=
  if t = 1 then some JoinType.INNER
  else if t = 2 then some JoinType.FULL_OUTER
  else if t = 3 then some JoinType.LEFT_OUTER
  else if t = 4 then some JoinType.RIGHT_OUTER
  else if t = 5 then some JoinType.LEFT_SEMI
  else if t = 6 then some JoinType.LEFT_ANTI
  else none

/-- The key-comparison correspondence exactly as the specification states
it: equal to EQ, is_not_distinct_from to IS, nothing else accepted. -/
def specKeyCmpMap (n : String) : Option JoinKeyCmp :=
  if n = "equal" then some JoinKeyCmp.EQ
  else if n = "is_not_distinct_from" then some JoinKeyCmp.IS
  else none

-- ---------------------------------------------------------------------------
-- Concrete fixtures used by the witness theorems
-- ---------------------------------------------------------------------------

/-- A concrete collaborator record: expression handle 10 is an equality of
two key references, 11 a bare field reference, 12 a call to an unsupported
function, 20 an equality call with an empty argument list; schema handle 0
has two fields, handle 1 one field; path /d is a directory whose recursive
listing holds one parquet file. -/
def envW : TranslationEnv where
  exprFromProto := fun h =>
    if h = 10 then
      .ok (Expression.call "equal"
        [Expression.field (FieldRef.index 0), Expression.field (FieldRef.index 2)])
    else if h = 11 then .ok (Expression.field (FieldRef.index 0))
    else if h = 12 then
      .ok (Expression.call "less"
        [Expression.field (FieldRef.index 0), Expression.field (FieldRef.index 2)])
    else if h = 20 then .ok (Expression.call "equal" [])
    else .error (Status.invalid "unknown expression handle")
  schemaFromProto := fun h =>
    if h = 0 then .ok ⟨["a", "b"]⟩
    else if h = 1 then .ok ⟨["c"]⟩
    else .error (Status.invalid "unknown schema handle")
  getFileInfo := fun p =>
    if p = "/d" then .ok ⟨"/d", FileType.Directory⟩ else .ok ⟨p, FileType.File⟩
  listDirRecursive := fun p => .ok [⟨p ++ "/x.parquet", FileType.File⟩]
  globFiles := fun _ => .ok []
  decodeFunction := fun _ => .ok "sum"

/-- A ReadRel over schema handle 0 (two columns), no files. -/
def relReadL : Rel := Rel.read none false 0 none false (some ⟨[], false⟩)

/-- A ReadRel over schema handle 1 (one column), no files. -/
def relReadR : Rel := Rel.read none false 1 none false (some ⟨[], false⟩)

/-- The scan declaration relReadL translates to. -/
def declScanL : Declaration :=
  Declaration.mk "scan" (NodeOptions.scan [] none ⟨["a", "b"]⟩ none) []

/-- The scan declaration relReadR translates to. -/
def declScanR : Declaration :=
  Declaration.mk "scan" (NodeOptions.scan [] none ⟨["c"]⟩ none) []

/-- A fully well-formed inner equi-join of the two reads. -/
def relJoinW : Rel := Rel.join none false (some relReadL) (some relReadR) 1 (some 10)

/-- The failing input of claim C9: a ReadRel whose first LocalFiles item
contributes one file and whose second item is a uri_path that resolves to
the directory /d. -/
def relReadDir : Rel :=
  Rel.read none false 1 none false
    (some ⟨[⟨PathType.uriFile "file:///prev.parquet", FileFormatCase.parquet, 0, 0, 0⟩,
            ⟨PathType.uriPath "file:///d", FileFormatCase.parquet, 0, 0, 0⟩], false⟩)

/-- The failing input of claim C10: a join whose key expression translates
to a call of equal with an empty argument list (handle 20). -/
def relJoinShortArgs : Rel :=
  Rel.join none false (some relReadL) (some relReadR) 1 (some 20)

end ArrowSubstrait

namespace ArrowSubstrait

/-- The translated join declaration produced on the success path of the
witness environment. -/
def infoJoinW : DeclarationInfo :=
  ⟨Declaration.mk "hashjoin"
    (NodeOptions.hashjoin JoinType.INNER [FieldRef.index 0] [FieldRef.index 2]
      [JoinKeyCmp.EQ])
    [declScanL, declScanR], 3⟩

/-- A ProjectRel over the two-column read, appending expression handle 11. -/
def relProjW : Rel := Rel.project none false (some relReadL) [11]

/-- The declaration relProjW translates to: both input columns re-emitted,
then the translated expression, for three output columns. -/
def infoProjW : DeclarationInfo :=
  ⟨Declaration.mk "project"
    (NodeOptions.project
      [Expression.field (FieldRef.index 0), Expression.field (FieldRef.index 1),
       Expression.field (FieldRef.index 0)])
    [declScanL], 3⟩

-- ---------------------------------------------------------------------------
-- Helper lemmas
-- ---------------------------------------------------------------------------

theorem bind_ok {α β : Type} {m : CRes α} {f : α → CRes β} {b : β}
    (h : CRes.bind m f = .ok b) : ∃ a, m = .ok a ∧ f a = .ok b := by
  cases m with
  | ok a => exact ⟨a, rfl, h⟩
  | err s => simp [CRes.bind] at h
  | ub => simp [CRes.bind] at h

theorem liftE_ok {α : Type} {x : Except Status α} {a : α} (h : liftE x = .ok a) :
    x = .ok a := by
  cases x with
  | ok b => cases h; rfl
  | error s => simp [liftE] at h

theorem vecIdx_ok {α : Type} {v : List α} {i : Nat} {a : α} (h : vecIdx v i = .ok a) :
    v.get? i = some a := by
  unfold vecIdx at h
  cases hx : v.get? i <;> rw [hx] at h
  · simp at h
  · cases h; rfl

theorem translateExprs_length (env : TranslationEnv) :
    ∀ (hs : List Nat) (tes : List Expression),
      translateExprs env hs = .ok tes → tes.length = hs.length := by
  intro hs
  induction hs with
  | nil =>
    intro tes h
    simp only [translateExprs] at h
    cases h
    rfl
  | cons hd tl ih =>
    intro tes h
    simp only [translateExprs] at h
    obtain ⟨e, _, h2⟩ := bind_ok h
    obtain ⟨es, hes, h3⟩ := bind_ok h2
    cases h3
    simp [ih es hes]

theorem joinTypeFromProto_err_of_spec_none {t : Int} (h : specJoinTypeMap t = none) :
    ∃ s, joinTypeFromProto t = .err s := by
  unfold specJoinTypeMap at h
  unfold joinTypeFromProto JOIN_TYPE_UNSPECIFIED JOIN_TYPE_INNER JOIN_TYPE_OUTER
    JOIN_TYPE_LEFT JOIN_TYPE_RIGHT JOIN_TYPE_SEMI JOIN_TYPE_ANTI
  split_ifs at h ⊢ <;> first
    | exact ⟨_, rfl⟩
    | simp_all

theorem joinTypeFromProto_ok_spec {t : Int} {jt : JoinType}
    (h : joinTypeFromProto t = .ok jt) : specJoinTypeMap t = some jt := by
  unfold joinTypeFromProto JOIN_TYPE_UNSPECIFIED JOIN_TYPE_INNER JOIN_TYPE_OUTER
    JOIN_TYPE_LEFT JOIN_TYPE_RIGHT JOIN_TYPE_SEMI JOIN_TYPE_ANTI at h
  unfold specJoinTypeMap
  split_ifs at h ⊢ <;> first
    | (cases h; rfl)
    | simp_all

theorem joinKeyCmpFromName_ok_spec {n : String} {kc : JoinKeyCmp}
    (h : joinKeyCmpFromName n = .ok kc) : specKeyCmpMap n = some kc := by
  unfold joinKeyCmpFromName at h
  unfold specKeyCmpMap
  split_ifs at h ⊢ <;> first
    | (cases h; rfl)
    | simp_all

theorem joinKeyCmpFromName_err_of_spec_none {n : String} (h : specKeyCmpMap n = none) :
    ∃ s, joinKeyCmpFromName n = .err s ∧ s.code = StatusCode.invalid := by
  unfold specKeyCmpMap at h
  unfold joinKeyCmpFromName
  split_ifs at h ⊢ <;> first
    | exact ⟨_, rfl, rfl⟩
    | simp_all

/-- Inversion of the kJoin success path: whatever a successful join
translation returned, every intermediate stage must have succeeded and the
result has the hashjoin shape built at the end of the case. -/
theorem join_fromProto_ok (env : TranslationEnv) (common : Option RelCommon)
    (advExt : Bool) (l r : Rel) (t : Int) (e : Option Nat) (d : DeclarationInfo)
    (h : FromProto env (Rel.join common advExt (some l) (some r) t e) = .ok d) :
    ∃ (dl dr : DeclarationInfo) (jt : JoinType) (eh : Nat) (ex : Expression)
      (fname : String) (args : List Expression) (arg0 arg1 : Expression)
      (kc : JoinKeyCmp) (lk rk : FieldRef),
      checkRelCommon common advExt = .ok () ∧
      joinTypeFromProto t = .ok jt ∧
      FromProto env l = .ok dl ∧
      FromProto env r = .ok dr ∧
      e = some eh ∧
      env.exprFromProto eh = .ok ex ∧
      ex.callOf = some (fname, args) ∧
      joinKeyCmpFromName fname = .ok kc ∧
      args.get? 0 = some arg0 ∧
      args.get? 1 = some arg1 ∧
      arg0.fieldRefOf = some lk ∧
      arg1.fieldRefOf = some rk ∧
      d = ⟨Declaration.mk "hashjoin" (NodeOptions.hashjoin jt [lk] [rk] [kc])
            [dl.declaration, dr.declaration],
           dl.numColumns + dr.numColumns⟩ := by
  simp only [FromProto] at h
  split at h <;> try (exact CRes.noConfusion h)
  rename_i u hcc
  split at h <;> try (exact CRes.noConfusion h)
  rename_i jt hjt
  split at h <;> try (exact CRes.noConfusion h)
  rename_i dl hdl
  split at h <;> try (exact CRes.noConfusion h)
  rename_i dr hdr
  split at h <;> try (exact CRes.noConfusion h)
  rename_i eh
  split at h <;> try (exact CRes.noConfusion h)
  rename_i ex hex
  split at h <;> try (exact CRes.noConfusion h)
  rename_i fname args hcall
  split at h <;> try (exact CRes.noConfusion h)
  rename_i kc hkc
  split at h <;> try (exact CRes.noConfusion h)
  rename_i arg0 ha0
  split at h <;> try (exact CRes.noConfusion h)
  rename_i arg1 ha1
  split at h
  · rename_i lk rk hlk hrk
    injection h with h2
    exact ⟨dl, dr, jt, eh, ex, fname, args, arg0, arg1, kc, lk, rk,
      hcc, hjt, hdl, hdr, rfl, liftE_ok hex, hcall, hkc,
      vecIdx_ok ha0, vecIdx_ok ha1, hlk, hrk, h2.symm⟩
  · exact CRes.noConfusion h

/-- Inversion of the kProject success path. -/
theorem project_fromProto_ok (env : TranslationEnv) (common : Option RelCommon)
    (advExt : Bool) (i : Rel) (hs : List Nat) (d : DeclarationInfo)
    (h : FromProto env (Rel.project common advExt (some i) hs) = .ok d) :
    ∃ (di : DeclarationInfo) (tes : List Expression),
      checkRelCommon common advExt = .ok () ∧
      FromProto env i = .ok di ∧
      translateExprs env hs = .ok tes ∧
      d = ⟨Declaration.sequence2 di.declaration
            (Declaration.mk "project"
              (NodeOptions.project
                ((List.range di.numColumns).map
                  (fun k => Expression.field (FieldRef.index (Int.ofNat k))) ++ tes)) []),
           ((List.range di.numColumns).map
              (fun k => Expression.field (FieldRef.index (Int.ofNat k))) ++ tes).length⟩ := by
  simp only [FromProto] at h
  split at h <;> try (exact CRes.noConfusion h)
  rename_i u hcc
  split at h <;> try (exact CRes.noConfusion h)
  rename_i di hdi
  split at h <;> try (exact CRes.noConfusion h)
  rename_i tes htes
  injection h with h2
  exact ⟨di, tes, hcc, hdi, htes, h2.symm⟩

end ArrowSubstrait

namespace ArrowExec

theorem self_mem_errorRecipients (g : ExecPlanGraph) (i : Nat) (hi : i < g.numNodes) :
    i ∈ errorRecipients g i hi := by
  rw [errorRecipients]
  exact List.mem_cons_self _ _

theorem errorRecipients_mono (g : ExecPlanGraph) (i : Nat) (hi : i < g.numNodes)
    (j : Nat) (hj : j ∈ g.outputs i) (x : Nat)
    (hx : x ∈ errorRecipients g j (g.edgesDownstream i hi j hj).2) :
    x ∈ errorRecipients g i hi := by
  rw [errorRecipients]
  apply List.mem_cons_of_mem
  apply List.mem_flatten.mpr
  refine ⟨errorRecipients g j (g.edgesDownstream i hi j hj).2, ?_, hx⟩
  apply List.mem_map.mpr
  exact ⟨⟨j, hj⟩, List.mem_attach _ _, rfl⟩

theorem reaches_sink (g : ExecPlanGraph) (i : Nat) (hi : i < g.numNodes) :
    ∃ s, s ∈ errorRecipients g i hi ∧ g.outputs s = [] := by
  by_cases hout : g.outputs i = []
  · exact ⟨i, self_mem_errorRecipients g i hi, hout⟩
  · obtain ⟨j, hj⟩ := List.exists_mem_of_ne_nil _ hout
    have hji := g.edgesDownstream i hi j hj
    obtain ⟨s, hs, hsink⟩ := reaches_sink g j hji.2
    exact ⟨s, errorRecipients_mono g i hi j hj s hs, hsink⟩
termination_by g.numNodes - i
decreasing_by exact Nat.sub_lt_sub_left hi hji.1

end ArrowExec

namespace ArrowSubstrait

/-- Claim C1: for every Substrait JoinRel, FromProto maps the Substrait join
type to the engine join kind exactly as the table specJoinTypeMap states
(INNER to inner, OUTER to full outer, LEFT to left outer, RIGHT to right
outer, SEMI to left semi, ANTI to left anti), and JOIN_TYPE_UNSPECIFIED as
well as every other join type value makes the translation fail with an
error, producing no declaration. -/
theorem join_type_mapping (env : TranslationEnv) (common : Option RelCommon)
    (advExt : Bool) (l r : Rel) (t : Int) (e : Option Nat)
    (hc : checkRelCommon common advExt = .ok ()) :
    (specJoinTypeMap t = none →
      ∃ s, FromProto env (Rel.join common advExt (some l) (some r) t e) = .err s) ∧
    (∀ d, FromProto env (Rel.join common advExt (some l) (some r) t e) = .ok d →
      ∃ jt, specJoinTypeMap t = some jt ∧
        d.declaration.options.joinTypeOf = some jt) := by
  constructor
  · intro hnone
    obtain ⟨s, hs⟩ := joinTypeFromProto_err_of_spec_none hnone
    exact ⟨s, by simp [FromProto, hc, hs]⟩
  · intro d hd
    obtain ⟨dl, dr, jt, eh, ex, fname, args, arg0, arg1, kc, lk, rk,
      _, hjt, _, _, _, _, _, _, _, _, _, _, hdecl⟩ :=
      join_fromProto_ok env common advExt l r t e d hd
    refine ⟨jt, joinTypeFromProto_ok_spec hjt, ?_⟩
    rw [hdecl]
    rfl

/-- Witness for C1: translating a join with JOIN_TYPE_UNSPECIFIED (value 0)
fails with an error. -/
theorem join_type_mapping_witness :
    ∃ s, FromProto envW (Rel.join none false (some relReadL) (some relReadR) 0 (some 10))
      = .err s :=
  (join_type_mapping envW none false relReadL relReadR 0 (some 10) rfl).1 rfl

/-- Claim C2: every JoinRel accepted by FromProto yields a hashjoin
declaration whose inputs are exactly the translations of JoinRel.left and
JoinRel.right in those positions, with the left join keys drawn from the
first argument of the key-comparison call and the right join keys from its
second argument. -/
theorem join_inputs_and_keys (env : TranslationEnv) (common : Option RelCommon)
    (advExt : Bool) (l r : Rel) (t : Int) (e : Option Nat) (d : DeclarationInfo)
    (hd : FromProto env (Rel.join common advExt (some l) (some r) t e) = .ok d) :
    ∃ (dl dr : DeclarationInfo) (eh : Nat) (ex : Expression)
      (fname : String) (args : List Expression) (arg0 arg1 : Expression)
      (lk rk : FieldRef),
      FromProto env l = .ok dl ∧
      FromProto env r = .ok dr ∧
      d.declaration.factoryName = "hashjoin" ∧
      d.declaration.inputs = [dl.declaration, dr.declaration] ∧
      e = some eh ∧
      env.exprFromProto eh = .ok ex ∧
      ex.callOf = some (fname, args) ∧
      args.get? 0 = some arg0 ∧ arg0.fieldRefOf = some lk ∧
      args.get? 1 = some arg1 ∧ arg1.fieldRefOf = some rk ∧
      (∃ jt kc, d.declaration.options = NodeOptions.hashjoin jt [lk] [rk] [kc]) := by
  obtain ⟨dl, dr, jt, eh, ex, fname, args, arg0, arg1, kc, lk, rk,
    _, _, hdl, hdr, he, hex, hcall, _, ha0, ha1, hlk, hrk, hdecl⟩ :=
    join_fromProto_ok env common advExt l r t e d hd
  subst hdecl he
  exact ⟨dl, dr, eh, ex, fname, args, arg0, arg1, lk, rk,
    hdl, hdr, rfl, rfl, rfl, hex, hcall, ha0, hlk, ha1, hrk, jt, kc, rfl⟩

/-- Witness for C2: the concrete inner equi-join fixture is accepted and the
inversion applies to it. -/
theorem join_inputs_and_keys_witness :
    ∃ (dl dr : DeclarationInfo) (eh : Nat) (ex : Expression)
      (fname : String) (args : List Expression) (arg0 arg1 : Expression)
      (lk rk : FieldRef),
      FromProto envW relReadL = .ok dl ∧
      FromProto envW relReadR = .ok dr ∧
      infoJoinW.declaration.factoryName = "hashjoin" ∧
      infoJoinW.declaration.inputs = [dl.declaration, dr.declaration] ∧
      (some 10 : Option Nat) = some eh ∧
      envW.exprFromProto eh = .ok ex ∧
      ex.callOf = some (fname, args) ∧
      args.get? 0 = some arg0 ∧ arg0.fieldRefOf = some lk ∧
      args.get? 1 = some arg1 ∧ arg1.fieldRefOf = some rk ∧
      (∃ jt kc, infoJoinW.declaration.options = NodeOptions.hashjoin jt [lk] [rk] [kc]) :=
  join_inputs_and_keys envW none false relReadL relReadR 1 (some 10) infoJoinW rfl

/-- Claim C3: with every earlier stage of a JoinRel translation successful,
the key-comparison expression must be a call to equal (null-equality EQ) or
is_not_distinct_from (null-equality IS); a call to any other function fails
with an Invalid error and a non-call expression fails with an Invalid
error. -/
theorem join_key_comparison (env : TranslationEnv) (common : Option RelCommon)
    (advExt : Bool) (l r : Rel) (t : Int) (eh : Nat) (jt : JoinType)
    (dl dr : DeclarationInfo) (ex : Expression)
    (hc : checkRelCommon common advExt = .ok ())
    (hjt : joinTypeFromProto t = .ok jt)
    (hl : FromProto env l = .ok dl)
    (hr : FromProto env r = .ok dr)
    (hex : env.exprFromProto eh = .ok ex) :
    (ex.callOf = none →
      (FromProto env (Rel.join common advExt (some l) (some r) t (some eh))).errCode
        = some StatusCode.invalid) ∧
    (∀ fname args, ex.callOf = some (fname, args) → specKeyCmpMap fname = none →
      (FromProto env (Rel.join common advExt (some l) (some r) t (some eh))).errCode
        = some StatusCode.invalid) ∧
    (∀ d, FromProto env (Rel.join common advExt (some l) (some r) t (some eh)) = .ok d →
      ∀ fname args, ex.callOf = some (fname, args) →
        ∃ kc, specKeyCmpMap fname = some kc ∧
          d.declaration.options.keyCmpOf = some [kc]) := by
  refine ⟨?_, ?_, ?_⟩
  · intro hnone
    simp [FromProto, hc, hjt, hl, hr, hex, liftE, hnone, CRes.errCode, Status.invalid]
  · intro fname args hcall hspec
    obtain ⟨s, hs, hcode⟩ := joinKeyCmpFromName_err_of_spec_none hspec
    simp [FromProto, hc, hjt, hl, hr, hex, liftE, hcall, hs, CRes.errCode, hcode]
  · intro d hd fname args hcall
    obtain ⟨dl2, dr2, jt2, eh2, ex2, fname2, args2, arg0, arg1, kc, lk, rk,
      _, _, _, _, he2, hex2, hcall2, hkc, _, _, _, _, hdecl⟩ :=
      join_fromProto_ok env common advExt l r t (some eh) d hd
    cases he2
    rw [hex] at hex2
    cases hex2
    rw [hcall] at hcall2
    cases hcall2
    refine ⟨kc, joinKeyCmpFromName_ok_spec hkc, ?_⟩
    rw [hdecl]
    rfl

/-- Witness for C3: the fixture expression handle 11 is a bare field
reference, not a call, so the translation fails with Invalid. -/
theorem join_key_comparison_witness :
    (FromProto envW (Rel.join none false (some relReadL) (some relReadR) 1 (some 11))).errCode
      = some StatusCode.invalid :=
  (join_key_comparison envW none false relReadL relReadR 1 11 JoinType.INNER
    ⟨declScanL, 2⟩ ⟨declScanR, 1⟩ (Expression.field (FieldRef.index 0))
    rfl rfl rfl rfl rfl).1 rfl

end ArrowSubstrait

namespace ArrowSubstrait

/-- Claim C4: a FilterRel with input and condition translates to a filter
declaration carrying the translated condition that consumes the translated
input as its sole input, and analogously a ProjectRel translates to a
project declaration consuming its translated input. -/
theorem filter_project_input_first (env : TranslationEnv) (common : Option RelCommon)
    (advExt : Bool) (i : Rel) (di : DeclarationInfo) (ch : Nat) (ce : Expression)
    (hs : List Nat) (tes : List Expression)
    (hc : checkRelCommon common advExt = .ok ())
    (hin : FromProto env i = .ok di)
    (hcond : env.exprFromProto ch = .ok ce)
    (hexprs : translateExprs env hs = .ok tes) :
    FromProto env (Rel.filter common advExt (some i) (some ch)) =
      .ok ⟨Declaration.mk "filter" (NodeOptions.filter ce) [di.declaration],
           di.numColumns⟩ ∧
    FromProto env (Rel.project common advExt (some i) hs) =
      .ok ⟨Declaration.mk "project"
            (NodeOptions.project
              ((List.range di.numColumns).map
                (fun k => Expression.field (FieldRef.index (Int.ofNat k))) ++ tes))
            [di.declaration],
           di.numColumns + tes.length⟩ := by
  constructor
  · simp [FromProto, hc, hin, hcond, liftE, Declaration.sequence2,
      Declaration.factoryName, Declaration.options, Declaration.inputs]
  · simp [FromProto, hc, hin, hexprs, Declaration.sequence2,
      Declaration.factoryName, Declaration.options, Declaration.inputs]

/-- Witness for C4: the concrete filter and project fixtures translate to
the expected input-consuming declarations. -/
theorem filter_project_input_first_witness :
    FromProto envW (Rel.filter none false (some relReadL) (some 11)) =
      .ok ⟨Declaration.mk "filter"
            (NodeOptions.filter (Expression.field (FieldRef.index 0))) [declScanL], 2⟩ ∧
    FromProto envW (Rel.project none false (some relReadL) [11]) =
      .ok ⟨Declaration.mk "project"
            (NodeOptions.project
              ((List.range (2 : Nat)).map
                (fun k => Expression.field (FieldRef.index (Int.ofNat k))) ++
               [Expression.field (FieldRef.index 0)]))
            [declScanL], 2 + 1⟩ :=
  filter_project_input_first envW none false relReadL ⟨declScanL, 2⟩ 11
    (Expression.field (FieldRef.index 0)) [11] [Expression.field (FieldRef.index 0)]
    rfl rfl rfl rfl

/-- Claim C5: the per-field presence validations of FilterRel and JoinRel
are returned synchronously as Invalid errors with no declaration produced:
a FilterRel missing its input or (with a translatable input) missing its
condition, and a JoinRel missing its left relation, its right relation, or
(with valid type and translatable sides) its expression. -/
theorem construction_errors_invalid (env : TranslationEnv) (common : Option RelCommon)
    (advExt : Bool) (hc : checkRelCommon common advExt = .ok ()) :
    (∀ cond, (FromProto env (Rel.filter common advExt none cond)).errCode
      = some StatusCode.invalid) ∧
    (∀ i di, FromProto env i = .ok di →
      (FromProto env (Rel.filter common advExt (some i) none)).errCode
        = some StatusCode.invalid) ∧
    (∀ r t e, (FromProto env (Rel.join common advExt none r t e)).errCode
      = some StatusCode.invalid) ∧
    (∀ l t e, (FromProto env (Rel.join common advExt (some l) none t e)).errCode
      = some StatusCode.invalid) ∧
    (∀ l r t jt dl dr, joinTypeFromProto t = .ok jt → FromProto env l = .ok dl →
      FromProto env r = .ok dr →
      (FromProto env (Rel.join common advExt (some l) (some r) t none)).errCode
        = some StatusCode.invalid) := by
  refine ⟨?_, ?_, ?_, ?_, ?_⟩
  · intro cond
    simp [FromProto, hc, CRes.errCode, Status.invalid]
  · intro i di hdi
    simp [FromProto, hc, hdi, CRes.errCode, Status.invalid]
  · intro r t e
    simp [FromProto, hc, CRes.errCode, Status.invalid]
  · intro l t e
    simp [FromProto, hc, CRes.errCode, Status.invalid]
  · intro l r t jt dl dr hjt hl hr
    simp [FromProto, hc, hjt, hl, hr, CRes.errCode, Status.invalid]

/-- Witness for C5: a FilterRel with no input relation fails with Invalid. -/
theorem construction_errors_invalid_witness :
    (FromProto envW (Rel.filter none false none (some 11))).errCode
      = some StatusCode.invalid :=
  (construction_errors_invalid envW none false rfl).1 (some 11)

/-- Claim C6: every JoinRel accepted by FromProto declares an output column
count equal to the left input column count plus the right input column
count (left columns, then right columns). -/
theorem join_output_column_concat (env : TranslationEnv) (common : Option RelCommon)
    (advExt : Bool) (l r : Rel) (t : Int) (e : Option Nat) (d : DeclarationInfo)
    (hd : FromProto env (Rel.join common advExt (some l) (some r) t e) = .ok d) :
    ∃ dl dr, FromProto env l = .ok dl ∧ FromProto env r = .ok dr ∧
      d.numColumns = dl.numColumns + dr.numColumns := by
  obtain ⟨dl, dr, jt, eh, ex, fname, args, arg0, arg1, kc, lk, rk,
    _, _, hdl, hdr, _, _, _, _, _, _, _, _, hdecl⟩ :=
    join_fromProto_ok env common advExt l r t e d hd
  subst hdecl
  exact ⟨dl, dr, hdl, hdr, rfl⟩

/-- Witness for C6: the concrete join fixture has 2 + 1 = 3 output
columns. -/
theorem join_output_column_concat_witness :
    ∃ dl dr, FromProto envW relReadL = .ok dl ∧ FromProto envW relReadR = .ok dr ∧
      infoJoinW.numColumns = dl.numColumns + dr.numColumns :=
  join_output_column_concat envW none false relReadL relReadR 1 (some 10) infoJoinW rfl

/-- Claim C8: every ProjectRel accepted by FromProto emits one field
reference per input column, in input order, followed by the translations of
its own expressions, so the output column count is the input column count
plus the number of ProjectRel expressions. -/
theorem project_appends_columns (env : TranslationEnv) (common : Option RelCommon)
    (advExt : Bool) (i : Rel) (hs : List Nat) (d : DeclarationInfo)
    (hd : FromProto env (Rel.project common advExt (some i) hs) = .ok d) :
    ∃ di tes, FromProto env i = .ok di ∧ translateExprs env hs = .ok tes ∧
      d.declaration.factoryName = "project" ∧
      d.declaration.options = NodeOptions.project
        ((List.range di.numColumns).map
          (fun k => Expression.field (FieldRef.index (Int.ofNat k))) ++ tes) ∧
      d.numColumns = di.numColumns + hs.length := by
  obtain ⟨di, tes, hcc, hdi, htes, hdecl⟩ :=
    project_fromProto_ok env common advExt i hs d hd
  subst hdecl
  refine ⟨di, tes, hdi, htes, rfl, rfl, ?_⟩
  simp [translateExprs_length env hs tes htes]

/-- Witness for C8: the concrete project fixture re-emits the two input
columns, appends one expression, and has 2 + 1 = 3 output columns. -/
theorem project_appends_columns_witness :
    ∃ di tes, FromProto envW relReadL = .ok di ∧ translateExprs envW [11] = .ok tes ∧
      infoProjW.declaration.factoryName = "project" ∧
      infoProjW.declaration.options = NodeOptions.project
        ((List.range di.numColumns).map
          (fun k => Expression.field (FieldRef.index (Int.ofNat k))) ++ tes) ∧
      infoProjW.numColumns = di.numColumns + [11].length :=
  project_appends_columns envW none false relReadL [11] infoProjW rfl

end ArrowSubstrait

namespace ArrowExec

open ArrowSubstrait (Status StatusCode)

/-- Claim C7: an error delivered to any node of a plan is forwarded to each
of that node's outputs, reaches at least one sink, and the plan's finished
status resolves with exactly that error.  (ExecNode implementations are not
among the provided sources; the graph and forwarding rule are modelled from
the specification.) -/
theorem error_propagation (g : ExecPlanGraph) (i : Nat) (hi : i < g.numNodes)
    (e : Status) :
    (∀ j ∈ g.outputs i, j ∈ errorRecipients g i hi) ∧
    (∃ s, s ∈ errorRecipients g i hi ∧ g.outputs s = []) ∧
    planFinishedStatus g i hi e = e := by
  refine ⟨?_, reaches_sink g i hi, ?_⟩
  · intro j hj
    exact errorRecipients_mono g i hi j hj j
      (self_mem_errorRecipients g j (g.edgesDownstream i hi j hj).2)
  · obtain ⟨s, hs, hsink⟩ := reaches_sink g i hi
    have hany : (errorRecipients g i hi).any (fun j => (g.outputs j).isEmpty) = true :=
      List.any_eq_true.mpr ⟨s, hs, by simp [hsink]⟩
    simp [planFinishedStatus, hany]

/-- Witness for C7: in the three-node chain plan an error injected at the
source resolves the finished status with that error. -/
theorem error_propagation_witness :
    (0 : Nat) < chainPlan.numNodes ∧
    planFinishedStatus chainPlan 0 (by decide)
        ⟨ArrowSubstrait.StatusCode.invalid, "boom"⟩
      = ⟨ArrowSubstrait.StatusCode.invalid, "boom"⟩ :=
  ⟨by decide,
   (error_propagation chainPlan 0 (by decide)
     ⟨ArrowSubstrait.StatusCode.invalid, "boom"⟩).2.2⟩

end ArrowExec

namespace ArrowSubstrait

/-- Claim C9 (refuted by the code): translating a ReadRel whose second
LocalFiles item is a uri_path resolving to the directory /d.  The local
filesystem reports one file /d/x.parquet under /d, yet the scan declaration
is built with neither that discovered file nor the file accumulated from
the first item: the source moves the accumulated vector into the freshly
discovered list and then discards it, so the final file list holds only a
moved-from (emptied) entry. -/
theorem read_uri_path_directory_drops_files :
    FromProto envW relReadDir =
      .ok ⟨Declaration.mk "scan"
            (NodeOptions.scan [⟨"", FileType.File⟩] (some FileFormat.parquet)
              ⟨["c"]⟩ none) [],
          1⟩ ∧
    envW.listDirRecursive "/d" = .ok [⟨"/d/x.parquet", FileType.File⟩] ∧
    (⟨"/d/x.parquet", FileType.File⟩ : FileInfo) ∉ [(⟨"", FileType.File⟩ : FileInfo)] ∧
    (⟨"/prev.parquet", FileType.File⟩ : FileInfo) ∉ [(⟨"", FileType.File⟩ : FileInfo)] :=
  ⟨rfl, rfl, by decide, by decide⟩

/-- Claim C10 (refuted by the code): a JoinRel whose expression translates
to a call of equal with an empty argument list drives the translation into
the unchecked accesses callptr->arguments[0] / [1], i.e. undefined
behaviour, instead of being rejected with an error. -/
theorem join_short_arguments_out_of_bounds :
    envW.exprFromProto 20 = .ok (Expression.call "equal" []) ∧
    FromProto envW relJoinShortArgs = CRes.ub :=
  ⟨rfl, rfl⟩

end ArrowSubstrait
